import Mathlib

/-!
# Verification of the CodePal vector indexing and retrieval subsystem

Shallow embedding of `src/vector_store.py` (classes `CodeVectorStore`,
`DocumentStore`, `CodeProcessor`, the nested `FallbackEmbeddingModel`),
the repository-initialization flow of `src/agent.py`
(`CodePalManager.initialize_repository`), and the configuration constants
of `src/config.py` that these read.

External collaborators are modelled by their contracts:
* FAISS `IndexFlatL2` is an exact L2 nearest-neighbour index: `search`
  returns `k` (index, distance) slots sorted by ascending distance, the
  slots beyond the number of stored vectors padded with index `-1` and
  distance `FLT_MAX`.
* `faiss.write_index`/`read_index` and `pickle.dump`/`load` round-trip
  values exactly, so the on-disk artifacts are modelled as the values
  themselves (an artifact is present or absent).
* `hashlib.md5(...).hexdigest()` is implemented in full below (RFC 1321),
  producing the 32-character lowercase hexadecimal digest of the UTF-8
  encoding of the input.
* Python `float`/numpy `float32` arithmetic is idealized as exact real
  (respectively rational) arithmetic.
* Python list indexing `xs[i]` admits negative indices (`xs[-1]` is the
  last element) and raises `IndexError` out of range; it is modelled by
  `pyGet` returning `Option`.
-/

namespace CodePal

/-- Embedding vectors (numpy float32 rows), idealized as rational lists. -/
abbrev Vec := List ℚ

/-- A chunk document as built by `CodeProcessor.process_file`:
`page_content` plus the metadata dictionary. -/
structure Document where
  page_content : String
  file_path : String
  file_name : String
  file_extension : String
  chunk_index : Nat
  total_chunks : Nat
deriving DecidableEq, Repr

/-! ## Configuration constants (`src/config.py`) -/

/-- `Config.MAX_FILE_SIZE = 1024 * 1024`. -/
def MAX_FILE_SIZE : Nat := 1024 * 1024

/-- `Config.SUPPORTED_EXTENSIONS` (the literal set from `src/config.py`). -/
def SUPPORTED_EXTENSIONS : List String :=
  [".py", ".js", ".ts", ".java", ".cpp", ".c", ".h", ".hpp",
   ".cs", ".php", ".rb", ".go", ".rs", ".swift", ".kt",
   ".scala", ".r", ".m", ".mm", ".sh", ".bash", ".zsh",
   ".sql", ".html", ".css", ".scss", ".sass", ".xml",
   ".json", ".yaml", ".yml", ".toml", ".ini", ".cfg",
   ".md", ".txt", ".rst", ".tex"]

/-! ## FAISS `IndexFlatL2` model -/

/-- Squared L2 distance between two equal-length vectors
(FAISS `IndexFlatL2` reports squared L2 distances). -/
def distSq (u v : Vec) : ℚ :=
  (List.zipWith (fun a b => (a - b) * (a - b)) u v).sum

/-- The FAISS flat index: a dimension and the stored vectors in
insertion order.  `ntotal` is `vectors.length`. -/
structure FaissIndex where
  d : Nat
  vectors : List Vec
deriving DecidableEq, Repr

/-- FAISS pads missing neighbours' distances with `FLT_MAX`
(the largest finite `float32`, `2^128 - 2^104`). -/
def FLT_MAX : ℚ := 2 ^ 128 - 2 ^ 104

/-- Ordering used by the index: by distance (second component). -/
def distLE (a b : Int × ℚ) : Prop := a.2 ≤ b.2

instance : DecidableRel distLE := fun a b => inferInstanceAs (Decidable (a.2 ≤ b.2))
instance : IsTotal (Int × ℚ) distLE := ⟨fun a b => le_total a.2 b.2⟩
instance : IsTrans (Int × ℚ) distLE := ⟨fun _ _ _ h1 h2 => le_trans h1 h2⟩

/-- `index.search(q, k)`: the `k` slots of the result row, each an
(index, squared distance) pair, sorted by ascending distance, padded
with `(-1, FLT_MAX)` when `k` exceeds `ntotal`. -/
def FaissIndex.search (idx : FaissIndex) (q : Vec) (k : Nat) : List (Int × ℚ) :=
  let pairs := idx.vectors.enum.map (fun p => ((p.1 : Int), distSq q p.2))
  let sorted := List.insertionSort distLE pairs
  sorted.take k ++ List.replicate (k - sorted.length) (-1, FLT_MAX)

/-! ## Python list indexing -/

/-- Python `xs[i]`: negative indices count from the end; out of range is
`IndexError`, modelled as `none`. -/
def pyGet (xs : List α) (i : Int) : Option α :=
  if 0 ≤ i then xs.get? i.toNat
  else
    let j := (xs.length : Int) + i
    if 0 ≤ j then xs.get? j.toNat else none

/-! ## `CodeVectorStore` and `DocumentStore` state -/

/-- `DocumentStore` is a dict from a running counter to documents, i.e.
an insertion-ordered list; `add_document` appends. -/
abbrev DocStore := List Document

/-- The mutable state of a `CodeVectorStore` instance.  The embedding
model object itself is kept outside the state: operations that call
`encode` take the encoding function as a parameter (the active model is
either a network `SentenceTransformer`, whose contract is one vector per
input text, or the deterministic local fallback modelled below). -/
structure Store where
  embedding_model_name : String
  documents : List Document
  faiss_index : Option FaissIndex
  docstore : DocStore
deriving DecidableEq, Repr

/-- `CodeVectorStore.__init__`: empty documents, no index, empty docstore. -/
def Store.new (name : String) : Store :=
  { embedding_model_name := name, documents := [], faiss_index := none, docstore := [] }

/-- `CodeVectorStore.add_documents`: extends `self.documents`. -/
def add_documents (st : Store) (docs : List Document) : Store :=
  { st with documents := st.documents ++ docs }

/-- `CodeVectorStore.create_embeddings`: if there are no documents,
return unchanged; otherwise encode every document's `page_content`,
build a fresh `IndexFlatL2` over all embedding rows, and append every
document to the docstore. -/
def create_embeddings (enc : List String → List Vec) (st : Store) : Store :=
  if st.documents.isEmpty then st
  else
    let texts := st.documents.map (·.page_content)
    let embs := enc texts
    let dim := (embs.headD []).length
    { st with
      faiss_index := some { d := dim, vectors := embs },
      docstore := st.docstore ++ st.documents }

/-- `CodeVectorStore.similarity_search`: `none` models a raised
`IndexError` (Python `documents[idx]` out of range); otherwise the
returned document list.  The query is encoded as `encode([query])[0]`.
Mirrors the source loop: `for idx in I[0]: if idx < len(self.documents):
results.append(self.documents[idx])`. -/
def similarity_search (enc : List String → List Vec) (st : Store)
    (query : String) (k : Nat) : Option (List Document) :=
  match st.faiss_index with
  | none => some []
  | some idx =>
    let qv := (enc [query]).headD []
    let I := (idx.search qv k).map (·.1)
    I.foldl
      (fun acc i =>
        acc.bind fun rs =>
          if i < (st.documents.length : Int) then
            (pyGet st.documents i).map (fun d => rs ++ [d])
          else some rs)
      (some [])

/-! ## Persistence (`save` / `load`) -/

/-- The on-disk directory contents: each artifact present or absent.
`faiss_index.bin` / `documents.pkl` / `model_info.txt`.  Serialization
(FAISS binary format, pickle) round-trips exactly, so artifacts are
modelled as the values themselves. -/
structure Disk where
  faiss_file : Option FaissIndex
  documents_file : Option (List Document)
  model_info_file : Option String
deriving DecidableEq, Repr

/-- `CodeVectorStore.save`: writes `faiss_index.bin` only when an index
exists, and always writes `documents.pkl` and `model_info.txt`, into the
single directory `path`. -/
def save (st : Store) : Disk :=
  { faiss_file := st.faiss_index,
    documents_file := some st.documents,
    model_info_file := some st.embedding_model_name }

/-- `CodeVectorStore.load`: returns `False` iff the path does not exist
(`disk? = none`); otherwise loads each artifact that is present (keeping
the prior field value when absent), re-reads the model name, recreates
the docstore from the (possibly reloaded) documents, and returns `True`.
The boolean result models the Python return value. -/
def load (st : Store) (disk? : Option Disk) : Bool × Store :=
  match disk? with
  | none => (false, st)
  | some disk =>
    let st1 := match disk.faiss_file with
      | some fi => { st with faiss_index := some fi }
      | none => st
    let st2 := match disk.documents_file with
      | some ds => { st1 with documents := ds }
      | none => st1
    let st3 := match disk.model_info_file with
      | some m => { st2 with embedding_model_name := m }
      | none => st2
    (true, { st3 with docstore := st3.documents })

/-! ## Embedding model initialization (`_initialize_embedding_model`) -/

/-- The resolved embedding backend: a network `SentenceTransformer`
(with the name that loaded) or the deterministic local fallback. -/
inductive EmbModel where
  | network (name : String)
  | fallback
deriving DecidableEq, Repr

/-- `max_retries = 3` in `_initialize_embedding_model`. -/
def max_retries : Nat := 3

/-- `retry_delay = 5` (seconds), doubled after each failed attempt. -/
def initial_retry_delay : Nat := 5

/-- The hard-coded smaller fallback model used on attempts after the
first: `"paraphrase-MiniLM-L3-v2"`. -/
def fallback_model_name : String := "paraphrase-MiniLM-L3-v2"

/-- `Config.EMBEDDING_MODEL` default value. -/
def EMBEDDING_MODEL : String := "paraphrase-MiniLM-L3-v2"

/-- The model name tried on a given attempt: the primary name on attempt
0 only, the hard-coded fallback name on every later attempt. -/
def attemptName (primary : String) (attempt : Nat) : String :=
  if attempt = 0 then primary else fallback_model_name

/-- The retry loop of `_initialize_embedding_model`, from a given
attempt number, current delay, and remaining iterations.  `loadOk
attempt name` says whether `SentenceTransformer(name)` succeeds on that
attempt (the network environment).  Returns the resolved model, the
list of model names attempted, and the list of sleep durations
performed (in seconds). -/
def initFrom (loadOk : Nat → String → Bool) (primary : String) :
    Nat → Nat → Nat → EmbModel × List String × List Nat
  | _, _, 0 => (.fallback, [], [])
  | attempt, delay, fuel + 1 =>
    let name := attemptName primary attempt
    if loadOk attempt name then (.network name, [name], [])
    else if fuel = 0 then (.fallback, [name], [])
    else
      let r := initFrom loadOk primary (attempt + 1) (delay * 2) fuel
      (r.1, name :: r.2.1, delay :: r.2.2)

/-- `CodeVectorStore._initialize_embedding_model`: a `for attempt in
range(3)` loop starting with delay 5. -/
def initialize_embedding_model (loadOk : Nat → String → Bool)
    (primary : String) : EmbModel × List String × List Nat :=
  initFrom loadOk primary 0 initial_retry_delay max_retries

/-! ## Repository scanning (`CodeProcessor`) -/

/-- An entry of the directory walk (`repo_path.rglob("*")`): its path
segments (Python `Path.parts`), its size in bytes, and whether it is a
regular file. -/
structure FileEntry where
  parts : List String
  size : Nat
  isFile : Bool
deriving DecidableEq, Repr

/-- The final path component (Python `Path.name`). -/
def fname (f : FileEntry) : String := f.parts.getLastD ""

/-- Python `str.rfind(c)`: index of the last occurrence, `-1` if absent. -/
def pyRfind (cs : List Char) (c : Char) : Int :=
  cs.enum.foldl (fun acc p => if p.2 = c then (p.1 : Int) else acc) (-1)

/-- Python `Path.suffix`: the substring of the name from its last dot,
provided that dot is neither the first nor the last character;
otherwise the empty string. -/
def pySuffix (name : String) : String :=
  let cs := name.toList
  let i := pyRfind cs '.'
  if 0 < i ∧ i < (cs.length : Int) - 1 then String.mk (cs.drop i.toNat) else ""

/-- Python `part.startswith('.')`. -/
def startsWithDot (s : String) : Bool :=
  match s.toList with
  | [] => false
  | c :: _ => c = '.'

/-- The literal `ignore_dirs` set of `_should_process_file`. -/
def ignore_dirs : List String :=
  [".git", "__pycache__", "node_modules", ".venv", "venv", "env"]

/-- `CodeProcessor._should_process_file`: extension supported, no path
segment starting with a dot, no path segment in `ignore_dirs`. -/
def should_process_file (f : FileEntry) : Bool :=
  if ¬ (pySuffix (fname (f)) ∈ SUPPORTED_EXTENSIONS) then false
  else if f.parts.any startsWithDot then false
  else if f.parts.any (fun p => ignore_dirs.contains p) then false
  else true

/-- The files the scan/process pipeline yields documents from:
`rglob` entries that are regular files, pass `_should_process_file`,
and pass `process_file`'s size check (`st_size ≤ MAX_FILE_SIZE`). -/
def scanRepository (files : List FileEntry) : List FileEntry :=
  files.filter
    (fun f => f.isFile && should_process_file f && decide (f.size ≤ MAX_FILE_SIZE))

/-- The spec's characterization of the scanner's yield, written from
the claim's words for comparison: regular file, extension in the
supported set, size at most the maximum, and no path segment starting
with a dot or belonging to the fixed ignore set. -/
def specScanAllowed (f : FileEntry) : Bool :=
  f.isFile && decide (pySuffix (fname (f)) ∈ SUPPORTED_EXTENSIONS)
    && decide (f.size ≤ MAX_FILE_SIZE)
    && !(f.parts.any (fun p => startsWithDot p || ignore_dirs.contains p))

/-! ## `CodePalManager.initialize_repository` (`src/agent.py`) -/

/-- `Config.VECTOR_STORE_PATH` default value. -/
def VECTOR_STORE_PATH : String := "./vector_store"

/-- The persistence directory used by `initialize_repository`:
`os.path.join(Config.VECTOR_STORE_PATH, "code_vectors")`.  It is
computed without reference to the repository path being initialized. -/
def vector_store_path (_repoPath : String) : String :=
  VECTOR_STORE_PATH ++ "/code_vectors"

/-- The outcome of `initialize_repository`: loaded an existing store,
found no supported files, or processed `n` documents. -/
inductive InitResult where
  | loaded
  | noFiles
  | processed (n : Nat)
deriving DecidableEq, Repr

/-- The rebuild path of `initialize_repository`: process the
repository (its documents are `repoDocs`), and if any were produced,
build a fresh store over them and save it to the vector-store path. -/
def rebuildRepository (enc : List String → List Vec) (repoDocs : List Document)
    (prior : Option Store) (disk? : Option Disk) :
    InitResult × Option Store × Option Disk :=
  if repoDocs.isEmpty then (.noFiles, prior, disk?)
  else
    let vs := create_embeddings enc (add_documents (Store.new EMBEDDING_MODEL) repoDocs)
    (.processed repoDocs.length, some vs, some (save vs))

/-- `CodePalManager.initialize_repository`: when `force_reprocess` is
false and the vector-store path exists (`disk? = some _`), construct a
fresh store and try to load it, returning early on success; otherwise
process the repository, build, and save.  The resulting manager store
(`none` models Python `self.vector_store is None`) and the final disk
state are returned alongside the outcome. -/
def initialize_repository (enc : List String → List Vec)
    (repoDocs : List Document) (disk? : Option Disk) (force : Bool) :
    InitResult × Option Store × Option Disk :=
  match force, disk? with
  | false, some d =>
    let vs := Store.new EMBEDDING_MODEL
    let r := load vs (some d)
    if r.1 then (.loaded, some r.2, some d)
    else rebuildRepository enc repoDocs (some r.2) (some d)
  | _, _ => rebuildRepository enc repoDocs none disk?

/-! ## MD5 (`hashlib.md5(...).hexdigest()`), RFC 1321 -/

namespace MD5

/-- `2^32`, the word modulus. -/
def M32 : Nat := 2 ^ 32

/-- Addition of 32-bit words. -/
def add32 (a b : Nat) : Nat := (a + b) % M32

/-- Left rotation of a 32-bit word by `n` places. -/
def rotl32 (x n : Nat) : Nat := ((x <<< n) % M32) ||| ((x % M32) >>> (32 - n))

/-- Bitwise complement of a 32-bit word. -/
def not32 (x : Nat) : Nat := x ^^^ (M32 - 1)

/-- The per-round left-rotation amounts. -/
def shifts : List Nat :=
  [7, 12, 17, 22, 7, 12, 17, 22, 7, 12, 17, 22, 7, 12, 17, 22,
   5, 9, 14, 20, 5, 9, 14, 20, 5, 9, 14, 20, 5, 9, 14, 20,
   4, 11, 16, 23, 4, 11, 16, 23, 4, 11, 16, 23, 4, 11, 16, 23,
   6, 10, 15, 21, 6, 10, 15, 21, 6, 10, 15, 21, 6, 10, 15, 21]

/-- The sine-derived round constants `⌊2^32·|sin(i+1)|⌋`. -/
def sineK : List Nat :=
  [0xd76aa478, 0xe8c7b756, 0x242070db, 0xc1bdceee,
   0xf57c0faf, 0x4787c62a, 0xa8304613, 0xfd469501,
   0x698098d8, 0x8b44f7af, 0xffff5bb1, 0x895cd7be,
   0x6b901122, 0xfd987193, 0xa679438e, 0x49b40821,
   0xf61e2562, 0xc040b340, 0x265e5a51, 0xe9b6c7aa,
   0xd62f105d, 0x02441453, 0xd8a1e681, 0xe7d3fbc8,
   0x21e1cde6, 0xc33707d6, 0xf4d50d87, 0x455a14ed,
   0xa9e3e905, 0xfcefa3f8, 0x676f02d9, 0x8d2a4c8a,
   0xfffa3942, 0x8771f681, 0x6d9d6122, 0xfde5380c,
   0xa4beea44, 0x4bdecfa9, 0xf6bb4b60, 0xbebfbc70,
   0x289b7ec6, 0xeaa127fa, 0xd4ef3085, 0x04881d05,
   0xd9d4d039, 0xe6db99e5, 0x1fa27cf8, 0xc4ac5665,
   0xf4292244, 0x432aff97, 0xab9423a7, 0xfc93a039,
   0x655b59c3, 0x8f0ccc92, 0xffeff47d, 0x85845dd1,
   0x6fa87e4f, 0xfe2ce6e0, 0xa3014314, 0x4e0811a1,
   0xf7537e82, 0xbd3af235, 0x2ad7d2bb, 0xeb86d391]

/-- The `j`th little-endian 32-bit word of a 64-byte chunk. -/
def wordAt (chunk : List Nat) (j : Nat) : Nat :=
  chunk.getD (4 * j) 0 + 256 * chunk.getD (4 * j + 1) 0
    + 65536 * chunk.getD (4 * j + 2) 0 + 16777216 * chunk.getD (4 * j + 3) 0

/-- One of the 64 MD5 rounds on state `(a, b, c, d)`. -/
def roundStep (Mw : List Nat) (st : Nat × Nat × Nat × Nat) (i : Nat) :
    Nat × Nat × Nat × Nat :=
  let (a, b, c, d) := st
  let fg :=
    if i < 16 then ((b &&& c) ||| (not32 b &&& d), i)
    else if i < 32 then ((d &&& b) ||| (not32 d &&& c), (5 * i + 1) % 16)
    else if i < 48 then (b ^^^ c ^^^ d, (3 * i + 5) % 16)
    else (c ^^^ (b ||| not32 d), (7 * i) % 16)
  let f := (fg.1 + a + sineK.getD i 0 + Mw.getD fg.2 0) % M32
  (d, add32 b (rotl32 f (shifts.getD i 0)), b, c)

/-- Process one 64-byte chunk, adding the round output into the
running state. -/
def processChunk (h : Nat × Nat × Nat × Nat) (chunk : List Nat) :
    Nat × Nat × Nat × Nat :=
  let Mw := (List.range 16).map (wordAt chunk)
  let r := (List.range 64).foldl (roundStep Mw) h
  (add32 h.1 r.1, add32 h.2.1 r.2.1, add32 h.2.2.1 r.2.2.1, add32 h.2.2.2 r.2.2.2)

/-- Process the padded message 64 bytes at a time (fuel-indexed so the
recursion is structural; one byte of fuel per message byte suffices). -/
def processChunks (h : Nat × Nat × Nat × Nat) (l : List Nat) :
    Nat → Nat × Nat × Nat × Nat
  | 0 => h
  | fuel + 1 =>
    if l.isEmpty then h
    else processChunks (processChunk h (l.take 64)) (l.drop 64) fuel

/-- The `count` low-order bytes of `n`, little-endian. -/
def leBytes (n count : Nat) : List Nat :=
  (List.range count).map (fun i => (n >>> (8 * i)) % 256)

/-- MD5 padding: a `0x80` byte, zeros to 56 mod 64, then the original
bit length as a little-endian 64-bit quantity. -/
def padMessage (msg : List Nat) : List Nat :=
  let len := msg.length
  let padLen := (56 - (len + 1) % 64) % 64
  msg ++ [0x80] ++ List.replicate padLen 0 ++ leBytes ((len * 8) % 2 ^ 64) 8

/-- The 16-byte MD5 digest of a byte string. -/
def md5Bytes (msg : List Nat) : List Nat :=
  let padded := padMessage msg
  let r := processChunks (0x67452301, 0xefcdab89, 0x98badcfe, 0x10325476)
    padded padded.length
  leBytes r.1 4 ++ leBytes r.2.1 4 ++ leBytes r.2.2.1 4 ++ leBytes r.2.2.2 4

end MD5

/-- The lowercase hexadecimal digit character of `n % 16`
(`Nat.digitChar` maps 0..15 to exactly the characters 0-9, a-f). -/
def hexChar (n : Nat) : Char := Nat.digitChar (n % 16)

/-- The two hexadecimal characters of a byte (`%02x`). -/
def byteHex (b : Nat) : List Char := [hexChar (b / 16), hexChar b]

/-- UTF-8 encoding of one character (Python `str.encode()`). -/
def utf8Char (c : Char) : List Nat :=
  let n := c.toNat
  if n < 0x80 then [n]
  else if n < 0x800 then [0xC0 ||| (n >>> 6), 0x80 ||| (n &&& 0x3F)]
  else if n < 0x10000 then
    [0xE0 ||| (n >>> 12), 0x80 ||| ((n >>> 6) &&& 0x3F), 0x80 ||| (n &&& 0x3F)]
  else
    [0xF0 ||| (n >>> 18), 0x80 ||| ((n >>> 12) &&& 0x3F),
     0x80 ||| ((n >>> 6) &&& 0x3F), 0x80 ||| (n &&& 0x3F)]

/-- UTF-8 encoding of a string (Python `text.encode()`). -/
def utf8Encode (s : String) : List Nat := (s.toList.map utf8Char).flatten

/-- `hashlib.md5(text.encode()).hexdigest()`: the 32-character
lowercase hex digest. -/
def md5Hex (s : String) : String :=
  String.mk ((MD5.md5Bytes (utf8Encode s)).map byteHex).flatten

/-! ## The deterministic local fallback (`FallbackEmbeddingModel`) -/

/-- `FallbackEmbeddingModel.dimension = 128`. -/
def fallback_dimension : Nat := 128

/-- The pre-normalization embedding of one text:
`np.array([ord(c) for c in text_hash[:self.dimension]])` where
`text_hash = hashlib.md5(text.encode()).hexdigest()`. -/
def fallbackRaw (t : String) : List ℚ :=
  ((md5Hex t).toList.take fallback_dimension).map (fun c => (c.toNat : ℚ))

/-- `if np.linalg.norm(v) > 0: v = v / np.linalg.norm(v)`: divide by
the L2 norm when it is positive.  Stated over the reals since the norm
is a square root. -/
noncomputable def l2normalize (v : List ℚ) : List ℝ :=
  let w : List ℝ := v.map Rat.cast
  let n : ℝ := Real.sqrt ((w.map (fun x => x * x)).sum)
  if 0 < n then w.map (fun x => x / n) else w

/-- `FallbackEmbeddingModel.encode`: one normalized hash-based vector
per input text, in input order. -/
noncomputable def fallbackEncode (texts : List String) : List (List ℝ) :=
  texts.map (fun t => l2normalize (fallbackRaw t))

/-- `len(index)` for a store: the number of vectors held by the FAISS
index (`ntotal`), 0 when no index has been built. -/
def ntotal (st : Store) : Nat :=
  match st.faiss_index with
  | none => 0
  | some idx => idx.vectors.length

/-- The build pass of `initialize_repository`: a fresh
`CodeVectorStore`, `add_documents`, `create_embeddings`. -/
def buildStore (enc : List String → List Vec) (docs : List Document) : Store :=
  create_embeddings enc (add_documents (Store.new EMBEDDING_MODEL) docs)

/-- A sample chunk document. -/
def exDoc : Document :=
  { page_content := "print(1)", file_path := "a.py", file_name := "a.py",
    file_extension := ".py", chunk_index := 0, total_chunks := 1 }

/-- A second sample chunk document. -/
def exDoc2 : Document :=
  { page_content := "def f(): pass", file_path := "b.py", file_name := "b.py",
    file_extension := ".py", chunk_index := 0, total_chunks := 1 }

/-- An encoding function used in concrete instances: one fixed
two-component vector per input text. -/
def encConst : List String → List Vec := fun ts => ts.map (fun _ => [3, 4])

/-- A network environment in which every model load fails. -/
def allFail : Nat → String → Bool := fun _ _ => false

/-! # Helper lemmas -/

theorem leBytes_length (n count : Nat) : (MD5.leBytes n count).length = count := by
  simp [MD5.leBytes]

theorem md5Bytes_length (m : List Nat) : (MD5.md5Bytes m).length = 16 := by
  simp [MD5.md5Bytes, leBytes_length]

theorem byteHex_flatten_length (bs : List Nat) :
    ((bs.map byteHex).flatten).length = 2 * bs.length := by
  induction bs with
  | nil => simp
  | cons b bs ih => simp [byteHex, ih]; omega

theorem md5Hex_length (s : String) : (md5Hex s).length = 32 := by
  show (((MD5.md5Bytes (utf8Encode s)).map byteHex).flatten).length = 32
  rw [byteHex_flatten_length, md5Bytes_length]

theorem md5Hex_toList_length (s : String) : (md5Hex s).toList.length = 32 :=
  md5Hex_length s

theorem hexChar_toNat_ge (n : Nat) : 48 ≤ (hexChar n).toNat := by
  have h : n % 16 < 16 := Nat.mod_lt _ (by norm_num)
  unfold hexChar
  set m := n % 16 with hm
  clear_value m
  interval_cases m <;> decide

theorem md5Hex_chars (s : String) : ∀ c ∈ (md5Hex s).toList, 48 ≤ c.toNat := by
  intro c hc
  simp only [md5Hex, String.toList, String.data] at hc
  rw [List.mem_flatten] at hc
  obtain ⟨l, hl, hcl⟩ := hc
  rw [List.mem_map] at hl
  obtain ⟨b, _, rfl⟩ := hl
  simp only [byteHex, List.mem_cons, List.mem_singleton] at hcl
  rcases hcl with rfl | rfl | h
  · exact hexChar_toNat_ge _
  · exact hexChar_toNat_ge _
  · exact absurd h (List.not_mem_nil c)

theorem fallbackRaw_length (t : String) : (fallbackRaw t).length = 32 := by
  show (((md5Hex t).toList.take fallback_dimension).map _).length = 32
  rw [List.length_map, List.length_take, md5Hex_toList_length]
  decide

theorem fallbackRaw_pos (t : String) : ∀ x ∈ fallbackRaw t, 0 < x := by
  intro x hx
  simp only [fallbackRaw, List.mem_map] at hx
  obtain ⟨c, hc, rfl⟩ := hx
  have h48 : 48 ≤ c.toNat := md5Hex_chars t c (List.mem_of_mem_take hc)
  have : (48 : ℚ) ≤ (c.toNat : ℚ) := by exact_mod_cast h48
  linarith

theorem l2normalize_length (v : List ℚ) : (l2normalize v).length = v.length := by
  simp only [l2normalize]
  split
  · rw [List.length_map, List.length_map]
  · rw [List.length_map]

theorem sum_sq_mul (w : List ℝ) (c : ℝ) :
    ((w.map (fun x => x * c)).map (fun y => y * y)).sum
      = ((w.map (fun x => x * x)).sum) * (c * c) := by
  induction w with
  | nil => simp
  | cons a w ih =>
    simp only [List.map_cons, List.sum_cons, ih]
    ring

/-- The normalized fallback vector has unit squared norm whenever every
raw component is positive and the raw vector is nonempty. -/
theorem l2normalize_unit (v : List ℚ) (hv : v ≠ []) (hpos : ∀ x ∈ v, 0 < x) :
    ((l2normalize v).map (fun x => x * x)).sum = 1 := by
  have hSpos : 0 < (((v.map Rat.cast).map (fun x : ℝ => x * x)).sum) := by
    apply List.sum_pos
    · intro y hy
      rw [List.mem_map] at hy
      obtain ⟨x, hx, rfl⟩ := hy
      rw [List.mem_map] at hx
      obtain ⟨x0, hx0, rfl⟩ := hx
      have h0 : (0 : ℚ) < x0 := hpos x0 hx0
      have h0R : (0 : ℝ) < Rat.cast x0 := by exact_mod_cast h0
      exact mul_pos h0R h0R
    · intro h
      rw [List.map_eq_nil_iff, List.map_eq_nil_iff] at h
      exact hv h
  have hn : 0 < Real.sqrt (((v.map Rat.cast).map (fun x : ℝ => x * x)).sum) :=
    Real.sqrt_pos.mpr hSpos
  have hnormalize : l2normalize v
      = (v.map Rat.cast).map
          (fun x => x / Real.sqrt (((v.map Rat.cast).map (fun x : ℝ => x * x)).sum)) := by
    simp only [l2normalize]
    rw [if_pos hn]
  rw [hnormalize]
  have hdiv : ((v.map Rat.cast).map
        (fun x => x / Real.sqrt (((v.map Rat.cast).map (fun x : ℝ => x * x)).sum)))
      = (v.map Rat.cast).map
          (fun x => x * (Real.sqrt (((v.map Rat.cast).map (fun x : ℝ => x * x)).sum))⁻¹) := by
    simp only [div_eq_mul_inv]
  rw [hdiv, sum_sq_mul, ← mul_inv, Real.mul_self_sqrt (le_of_lt hSpos),
    mul_inv_cancel₀ (ne_of_gt hSpos)]

/-! # Claims -/

/-- C10: for every input text, the deterministic fallback's vector has
exactly 32 components — one per character of the MD5 hexadecimal
digest — although the model declares `dimension = 128`; the raw vector
is everywhere positive (in particular nonzero), and the emitted vector
is the raw one divided by its own L2 norm, hence of unit norm. -/
theorem fallback_vector_32_unit_norm (t : String) :
    fallback_dimension = 128 ∧
    (md5Hex t).length = 32 ∧
    (fallbackRaw t).length = 32 ∧
    (l2normalize (fallbackRaw t)).length = 32 ∧
    (fallbackRaw t).all (fun x => decide (0 < x)) = true ∧
    ((l2normalize (fallbackRaw t)).map (fun x => x * x)).sum = 1 := by
  refine ⟨rfl, md5Hex_length t, fallbackRaw_length t, ?_, ?_, ?_⟩
  · rw [l2normalize_length, fallbackRaw_length]
  · rw [List.all_eq_true]
    intro x hx
    exact decide_eq_true (fallbackRaw_pos t x hx)
  · apply l2normalize_unit
    · intro h
      have := fallbackRaw_length t
      rw [h] at this
      simp at this
    · exact fallbackRaw_pos t

/-- C6: when every network model load fails, initialization resolves to
the deterministic local fallback, whose `encode` returns exactly one
vector per input text in input order, every vector of the same
dimension (32), and is deterministic (equal inputs give equal
outputs). -/
theorem fallback_encode_total (primary : String) (texts : List String) :
    (initialize_embedding_model allFail primary).1 = EmbModel.fallback ∧
    (fallbackEncode texts).length = texts.length ∧
    (∀ i : Nat, (fallbackEncode texts).get? i
      = (texts.get? i).map (fun t => l2normalize (fallbackRaw t))) ∧
    (fallbackEncode texts).map List.length = List.replicate texts.length 32 ∧
    fallbackEncode texts = fallbackEncode texts := by
  refine ⟨?_, by simp [fallbackEncode], fun i => by simp [fallbackEncode], ?_, rfl⟩
  · rfl
  · rw [List.eq_replicate_iff]
    constructor
    · simp [fallbackEncode]
    · intro b hb
      simp only [fallbackEncode, List.map_map, List.mem_map] at hb
      obtain ⟨t, _, rfl⟩ := hb
      simp only [Function.comp]
      rw [l2normalize_length, fallbackRaw_length]

/-- C1: after a successful build (`add_documents` then
`create_embeddings` on a fresh store, with at least one document and an
encoder producing one vector per text), the number of vectors held by
the FAISS index equals the number of documents held by the
`DocumentStore`; and the same alignment holds again after a `save`
followed by a `load` of that store (into any prior store). -/
theorem index_docstore_aligned (enc : List String → List Vec)
    (henc : ∀ ts, (enc ts).length = ts.length)
    (name : String) (docs : List Document) (hdocs : docs ≠ []) (st0 : Store) :
    ntotal (create_embeddings enc (add_documents (Store.new name) docs))
      = (create_embeddings enc (add_documents (Store.new name) docs)).docstore.length ∧
    ntotal ((load st0
        (some (save (create_embeddings enc (add_documents (Store.new name) docs))))).2)
      = ((load st0
        (some (save (create_embeddings enc (add_documents (Store.new name) docs))))).2).docstore.length := by
  constructor <;>
    simp [create_embeddings, add_documents, Store.new, ntotal, save, load, henc,
      List.isEmpty_iff, hdocs]

theorem index_docstore_aligned_witness :
    (∀ ts : List String, (encConst ts).length = ts.length) ∧
    ([exDoc] : List Document) ≠ [] ∧
    ntotal (create_embeddings encConst (add_documents (Store.new "m") [exDoc]))
      = (create_embeddings encConst (add_documents (Store.new "m") [exDoc])).docstore.length :=
  ⟨fun ts => by simp [encConst], by decide,
   (index_docstore_aligned encConst (fun ts => by simp [encConst]) "m" [exDoc]
      (by decide) (Store.new "m")).1⟩

/-- C2: for a built store, `save` to a path followed by `load` from the
untouched path succeeds and reproduces the FAISS index (same vectors,
same order), the document list (same contents and metadata, same
order), and a docstore equal to the original's, whatever store the load
is performed on. -/
theorem save_load_roundtrip (enc : List String → List Vec)
    (name : String) (docs : List Document) (hdocs : docs ≠ []) (st0 : Store) :
    (load st0 (some (save (create_embeddings enc (add_documents (Store.new name) docs))))).1
      = true ∧
    (load st0 (some (save (create_embeddings enc (add_documents (Store.new name) docs))))).2.faiss_index
      = (create_embeddings enc (add_documents (Store.new name) docs)).faiss_index ∧
    (load st0 (some (save (create_embeddings enc (add_documents (Store.new name) docs))))).2.documents
      = (create_embeddings enc (add_documents (Store.new name) docs)).documents ∧
    (load st0 (some (save (create_embeddings enc (add_documents (Store.new name) docs))))).2.docstore
      = (create_embeddings enc (add_documents (Store.new name) docs)).docstore ∧
    (load st0 (some (save (create_embeddings enc (add_documents (Store.new name) docs))))).2.embedding_model_name
      = (create_embeddings enc (add_documents (Store.new name) docs)).embedding_model_name := by
  refine ⟨?_, ?_, ?_, ?_, ?_⟩ <;>
    simp [create_embeddings, add_documents, Store.new, save, load,
      List.isEmpty_iff, hdocs]

theorem save_load_roundtrip_witness :
    ([exDoc] : List Document) ≠ [] ∧
    (load (Store.new "other")
        (some (save (create_embeddings encConst (add_documents (Store.new "m") [exDoc]))))).1
      = true :=
  ⟨by decide,
   (save_load_roundtrip encConst "m" [exDoc] (by decide) (Store.new "other")).1⟩

/-- A directory that exists but contains none of the three artifacts. -/
def emptyDirDisk : Disk :=
  { faiss_file := none, documents_file := none, model_info_file := none }

/-- A prior in-memory state: one document added, docstore still empty. -/
def exPrior : Store := add_documents (Store.new "m") [exDoc]

/-- C3 counterexample: on a directory that exists but is missing every
required artifact, `load` returns `True` (success), not a failure, and
it mutates the caller's prior in-memory state (the docstore is
rebuilt from the current documents). -/
theorem load_missing_artifacts_counterexample :
    (load exPrior (some emptyDirDisk)).1 = true ∧
    (load exPrior (some emptyDirDisk)).2 ≠ exPrior := by
  decide

/-- C3 amended: `load` returns `False` (leaving the store untouched)
only when the directory itself is missing; on an existing directory it
returns `True` regardless of which artifacts are present, keeps the
prior value of each field whose artifact is missing, and
unconditionally rebuilds the docstore from the current document list. -/
theorem load_missing_artifacts_amended (st : Store) (disk : Disk) :
    (load st none).1 = false ∧
    (load st none).2 = st ∧
    (load st (some disk)).1 = true ∧
    (disk.faiss_file = none → (load st (some disk)).2.faiss_index = st.faiss_index) ∧
    (disk.documents_file = none → (load st (some disk)).2.documents = st.documents) ∧
    (disk.model_info_file = none →
      (load st (some disk)).2.embedding_model_name = st.embedding_model_name) ∧
    (load st (some disk)).2.docstore = (load st (some disk)).2.documents := by
  obtain ⟨ff, df, mf⟩ := disk
  refine ⟨rfl, rfl, ?_, ?_, ?_, ?_, ?_⟩ <;>
    cases ff <;> cases df <;> cases mf <;> simp [load]

theorem load_missing_artifacts_amended_witness :
    (load exPrior (some emptyDirDisk)).1 = true ∧
    (load exPrior (some emptyDirDisk)).2.faiss_index = exPrior.faiss_index ∧
    (load exPrior (some emptyDirDisk)).2.documents = exPrior.documents :=
  ⟨(load_missing_artifacts_amended exPrior emptyDirDisk).2.2.1,
   (load_missing_artifacts_amended exPrior emptyDirDisk).2.2.2.1 rfl,
   (load_missing_artifacts_amended exPrior emptyDirDisk).2.2.2.2.1 rfl⟩

/-- C4 counterexample: in an environment where every model load fails,
the initialization attempts the primary model exactly once — not a
bounded series of retries of the primary followed by the same policy on
the fallback: the attempted-model trace is
`[primary, fallback, fallback]`, with sleeps `[5, 10]`. -/
theorem init_retry_counterexample :
    (initialize_embedding_model allFail "all-mpnet-base-v2").2.1
      = ["all-mpnet-base-v2", "paraphrase-MiniLM-L3-v2", "paraphrase-MiniLM-L3-v2"] ∧
    ((initialize_embedding_model allFail "all-mpnet-base-v2").2.1).count "all-mpnet-base-v2"
      = 1 ∧
    (initialize_embedding_model allFail "all-mpnet-base-v2").1 = EmbModel.fallback ∧
    (initialize_embedding_model allFail "all-mpnet-base-v2").2.2 = [5, 10] := by
  decide

/-- C4 amended: initialization runs a single loop of at most 3
attempts: attempt 1 loads the configured primary model, attempts 2 and
3 load the named smaller fallback model, with exponential-backoff
sleeps of 5 then 10 seconds after failed non-final attempts; the
deterministic local fallback is constructed only after all 3 attempts
fail. -/
theorem init_retry_amended (loadOk : Nat → String → Bool) (primary : String) :
    initialize_embedding_model loadOk primary =
      if loadOk 0 primary then (EmbModel.network primary, [primary], [])
      else if loadOk 1 fallback_model_name then
        (EmbModel.network fallback_model_name, [primary, fallback_model_name], [5])
      else if loadOk 2 fallback_model_name then
        (EmbModel.network fallback_model_name,
         [primary, fallback_model_name, fallback_model_name], [5, 10])
      else
        (EmbModel.fallback,
         [primary, fallback_model_name, fallback_model_name], [5, 10]) := by
  by_cases h0 : loadOk 0 primary <;>
    by_cases h1 : loadOk 1 fallback_model_name <;>
      by_cases h2 : loadOk 2 fallback_model_name <;>
        simp [initialize_embedding_model, max_retries, initial_retry_delay,
          initFrom, attemptName, h0, h1, h2]

/-- A built store holding one document and one vector. -/
def exStore1 : Store :=
  { embedding_model_name := "m", documents := [exDoc],
    faiss_index := some { d := 2, vectors := [[3, 4]] }, docstore := [exDoc] }

/-- C5: `similarity_search` on a store with no index returns the empty
list, but when `k` exceeds the number of stored vectors the FAISS
padding slots (index `-1`) pass the `idx < len(documents)` guard and
Python's negative indexing appends the *last* document once per padding
slot: with one stored document and `k = 2` the result is the document
twice, not the claimed "exactly all stored entries". -/
theorem similarity_search_padding_bug :
    similarity_search encConst exStore1 "q" 2 = some [exDoc, exDoc] ∧
    similarity_search encConst (Store.new "m") "q" 5 = some [] := by
  decide

/-- C8 counterexample: the persistence path is not repository-specific.
Two distinct repository roots map to the same persistence directory. -/
theorem persistence_path_not_repo_specific :
    vector_store_path "/home/u/repoA" = vector_store_path "/home/u/repoB" ∧
    "/home/u/repoA" ≠ "/home/u/repoB" := by
  exact ⟨rfl, by decide⟩

/-- C8 amended: the three artifacts are co-located in the single saved
directory (all three files present for a built store) under one fixed
persistence path — the same path whatever repository is initialized —
and `initialize_repository` with `force_reprocess = true` ignores any
persisted state: whatever the disk holds, it rebuilds from the
repository's documents and saves the fresh store. -/
theorem force_reprocess_rebuilds (enc : List String → List Vec)
    (repoDocs : List Document) (hne : repoDocs ≠ []) :
    (∀ r1 r2 : String, vector_store_path r1 = vector_store_path r2) ∧
    (∀ disk? : Option Disk,
      initialize_repository enc repoDocs disk? true
        = (InitResult.processed repoDocs.length, some (buildStore enc repoDocs),
           some (save (buildStore enc repoDocs)))) ∧
    (save (buildStore enc repoDocs)).faiss_file.isSome = true ∧
    (save (buildStore enc repoDocs)).documents_file.isSome = true ∧
    (save (buildStore enc repoDocs)).model_info_file.isSome = true := by
  refine ⟨fun r1 r2 => rfl, ?_, ?_, rfl, rfl⟩
  · intro disk?
    cases disk? <;>
      simp [initialize_repository, rebuildRepository, buildStore, List.isEmpty_iff, hne]
  · simp [save, buildStore, create_embeddings, add_documents, Store.new,
      List.isEmpty_iff, hne]

theorem force_reprocess_rebuilds_witness :
    ([exDoc] : List Document) ≠ [] ∧
    initialize_repository encConst [exDoc] (some emptyDirDisk) true
      = (InitResult.processed 1, some (buildStore encConst [exDoc]),
         some (save (buildStore encConst [exDoc]))) :=
  ⟨by decide,
   (force_reprocess_rebuilds encConst [exDoc] (by decide)).2.1 (some emptyDirDisk)⟩

theorem distSq_cons (a b : ℚ) (u v : Vec) :
    distSq (a :: u) (b :: v) = (a - b) * (a - b) + distSq u v := rfl

theorem distSq_nonneg (u v : Vec) : 0 ≤ distSq u v := by
  induction u generalizing v with
  | nil => simp [distSq]
  | cons a u ih =>
    cases v with
    | nil => simp [distSq]
    | cons b v =>
      rw [distSq_cons]
      have h1 : 0 ≤ (a - b) * (a - b) := mul_self_nonneg _
      have h2 := ih v
      linarith

theorem distSq_self (q : Vec) : distSq q q = 0 := by
  induction q with
  | nil => rfl
  | cons a q ih => rw [distSq_cons, ih, sub_self, zero_mul, zero_add]

theorem distSq_eq_zero {u v : Vec} (hlen : u.length = v.length)
    (h : distSq u v = 0) : u = v := by
  induction u generalizing v with
  | nil =>
    cases v with
    | nil => rfl
    | cons b v => simp at hlen
  | cons a u ih =>
    cases v with
    | nil => simp at hlen
    | cons b v =>
      rw [distSq_cons] at h
      have h1 : 0 ≤ (a - b) * (a - b) := mul_self_nonneg _
      have h2 : 0 ≤ distSq u v := distSq_nonneg u v
      have hab : (a - b) * (a - b) = 0 := by linarith
      have hsum : distSq u v = 0 := by linarith
      have hab' : a = b := by
        have := mul_self_eq_zero.mp hab
        linarith [sub_eq_zero.mp this]
      simp only [List.length_cons, Nat.succ.injEq] at hlen
      rw [hab', ih hlen hsum]

/-- The (index, distance) rows the index compares: one per stored
vector, in insertion order. -/
def searchPairs (idx : FaissIndex) (q : Vec) : List (Int × ℚ) :=
  idx.vectors.enum.map (fun p => ((p.1 : Int), distSq q p.2))

theorem search_eq (idx : FaissIndex) (q : Vec) (k : Nat) :
    idx.search q k
      = (List.insertionSort distLE (searchPairs idx q)).take k
        ++ List.replicate (k - (List.insertionSort distLE (searchPairs idx q)).length)
            (-1, FLT_MAX) := rfl

theorem mem_searchPairs {idx : FaissIndex} {q : Vec} {x : Int × ℚ}
    (hx : x ∈ searchPairs idx q) :
    ∃ (j : Nat) (v : Vec), idx.vectors.get? j = some v ∧ x = ((j : Int), distSq q v) := by
  rw [searchPairs, List.mem_map] at hx
  obtain ⟨⟨j, v⟩, hm, rfl⟩ := hx
  rw [List.mk_mem_enum_iff_get?] at hm
  exact ⟨j, v, hm, rfl⟩

theorem searchPairs_mem {idx : FaissIndex} {q : Vec} {j : Nat} {v : Vec}
    (h : idx.vectors.get? j = some v) :
    ((j : Int), distSq q v) ∈ searchPairs idx q := by
  rw [searchPairs, List.mem_map]
  exact ⟨(j, v), List.mk_mem_enum_iff_get?.mpr (by rw [h]), rfl⟩

theorem searchPairs_length (idx : FaissIndex) (q : Vec) :
    (searchPairs idx q).length = idx.vectors.length := by
  simp [searchPairs]

/-- C7: search results are sorted by non-decreasing distance (over the
`min k ntotal` genuine result slots), and when the query is itself a
stored vector the first result has distance 0 and points at a stored
vector equal to the query. -/
theorem search_sorted_self_match (idx : FaissIndex) (q : Vec) (k : Nat)
    (hd : ∀ v ∈ idx.vectors, v.length = idx.d) (hq : q.length = idx.d)
    (hk : 1 ≤ k) (hmem : q ∈ idx.vectors) :
    List.Pairwise (· ≤ ·)
      (((idx.search q k).take (min k idx.vectors.length)).map (fun r => r.2)) ∧
    ∃ i : Nat, (idx.search q k).head? = some ((i : Int), 0) ∧
      idx.vectors.get? i = some q := by
  have hsorted : List.Sorted distLE (List.insertionSort distLE (searchPairs idx q)) :=
    List.sorted_insertionSort distLE (searchPairs idx q)
  have hperm : List.Perm (List.insertionSort distLE (searchPairs idx q))
      (searchPairs idx q) :=
    List.perm_insertionSort distLE (searchPairs idx q)
  have hslen : (List.insertionSort distLE (searchPairs idx q)).length
      = idx.vectors.length := by
    rw [hperm.length_eq, searchPairs_length]
  constructor
  · have htake : (idx.search q k).take (min k idx.vectors.length)
        = (List.insertionSort distLE (searchPairs idx q)).take k := by
      rw [search_eq]
      apply List.take_left'
      rw [List.length_take, hslen]
    rw [htake]
    have hpw : List.Pairwise distLE
        ((List.insertionSort distLE (searchPairs idx q)).take k) :=
      List.Pairwise.sublist (List.take_sublist _ _) hsorted
    rw [List.pairwise_map]
    exact hpw.imp (fun h => h)
  · obtain ⟨j, hj⟩ := List.mem_iff_get?.mp hmem
    have hqpair : ((j : Int), (0 : ℚ)) ∈ List.insertionSort distLE (searchPairs idx q) := by
      rw [hperm.mem_iff]
      have := searchPairs_mem (q := q) hj
      rwa [distSq_self] at this
    cases hsort_eq : List.insertionSort distLE (searchPairs idx q) with
    | nil => rw [hsort_eq] at hqpair; exact absurd hqpair (List.not_mem_nil _)
    | cons hd0 tl =>
      have hhd_mem : hd0 ∈ searchPairs idx q := by
        rw [← hperm.mem_iff, hsort_eq]
        exact List.mem_cons_self _ _
      obtain ⟨j', v', hj', hhd_eq⟩ := mem_searchPairs hhd_mem
      have hhd_le : hd0.2 ≤ 0 := by
        rw [hsort_eq] at hqpair
        rcases List.mem_cons.mp hqpair with heq | htl
        · rw [← heq]
        · have := List.rel_of_sorted_cons (hsort_eq ▸ hsorted) _ htl
          exact this
      have hhd_ge : 0 ≤ hd0.2 := by
        rw [hhd_eq]
        exact distSq_nonneg q v'
      have hhd_dist : distSq q v' = 0 := by
        have : hd0.2 = 0 := le_antisymm hhd_le hhd_ge
        rw [hhd_eq] at this
        exact this
      have hv'q : v' = q := by
        have hv'len : v'.length = idx.d := hd v' (List.get?_mem hj')
        exact (distSq_eq_zero (by rw [hq, hv'len]) hhd_dist).symm
      refine ⟨j', ?_, by rw [hj', hv'q]⟩
      rw [search_eq, hsort_eq]
      obtain ⟨k', rfl⟩ : ∃ k', k = k' + 1 := ⟨k - 1, by omega⟩
      rw [List.take_cons, List.cons_append, List.head?_cons, hhd_eq, hhd_dist]
      omega

theorem search_sorted_self_match_witness :
    (∀ v ∈ ({ d := 2, vectors := [[0, 1], [3, 4]] } : FaissIndex).vectors,
        v.length = 2) ∧
    ([3, 4] : Vec).length = 2 ∧ 1 ≤ 2 ∧
    ([3, 4] : Vec) ∈ ({ d := 2, vectors := [[0, 1], [3, 4]] } : FaissIndex).vectors ∧
    ∃ i : Nat,
      (({ d := 2, vectors := [[0, 1], [3, 4]] } : FaissIndex).search [3, 4] 2).head?
        = some ((i : Int), 0) ∧
      ({ d := 2, vectors := [[0, 1], [3, 4]] } : FaissIndex).vectors.get? i
        = some [3, 4] :=
  ⟨by decide, by decide, by decide, by decide,
   (search_sorted_self_match { d := 2, vectors := [[0, 1], [3, 4]] } [3, 4] 2
      (by decide) (by decide) (by decide) (by decide)).2⟩

theorem any_or_split (l : List α) (p q : α → Bool) :
    l.any (fun x => p x || q x) = (l.any p || l.any q) := by
  induction l with
  | nil => rfl
  | cons a l ih =>
    cases hpa : p a <;> cases hqa : q a <;>
      simp [List.any_cons, hpa, hqa, ih]

theorem should_process_eq (f : FileEntry) :
    (f.isFile && should_process_file f && decide (f.size ≤ MAX_FILE_SIZE))
      = specScanAllowed f := by
  unfold should_process_file specScanAllowed
  by_cases hm : pySuffix (fname (f)) ∈ SUPPORTED_EXTENSIONS <;>
    cases hd : f.parts.any startsWithDot <;>
      cases hi : f.parts.any (fun p => ignore_dirs.contains p) <;>
        simp_all [any_or_split, List.any_eq_true, List.any_eq_false]

/-- C9: the scan/process pipeline yields exactly the regular files
whose extension is supported, whose size is at most the maximum, and
none of whose path segments starts with a dot or lies in the fixed
ignore set; in particular the scenario tree {a.py (500 B), b.png,
.git/c.py} yields exactly [a.py]. -/
theorem scanner_filter_characterization :
    (∀ files : List FileEntry, scanRepository files = files.filter specScanAllowed) ∧
    scanRepository
        [{ parts := ["a.py"], size := 500, isFile := true },
         { parts := ["b.png"], size := 100, isFile := true },
         { parts := [".git", "c.py"], size := 10, isFile := true }]
      = [{ parts := ["a.py"], size := 500, isFile := true }] := by
  constructor
  · intro files
    unfold scanRepository
    apply List.filter_congr
    intro f _
    exact should_process_eq f
  · decide

end CodePal
